import Mathlib

/-! Verification of the SOS content-addressable object store: a proxy tier
(api-server) performing hash-based placement and failover reads over groups
of blob-server nodes, plus a pairwise replication pass.  The definitions
below are a shallow embedding of the Go sources: `cmd_api_server.go`
(upload/download proxy), `cmd_replicate.go` (replication engine) and the
blob-server handler file (GetHandler / UploadHandler / ListHandler /
HealthHandler, in both its getStorage() and package-level-STORAGE forms).
Bytes are modelled as lists of naturals, Go byte-slices that may be nil as
`Option`, machine words as naturals reduced mod 2^32.
-/

namespace SOS

/-- A byte string: Go `[]byte` contents. -/
abbrev Bytes := List Nat

/-- HTTP headers as an association list of name/value pairs, names already in
Go's canonical form (as they appear when ranging over an `http.Header`). -/
abbrev Headers := List (String × String)

/-- Node-side metadata map, as stored alongside a blob. -/
abbrev Meta := List (String × String)

/-! Section: SHA-256, as used by APIUploadHandler (`crypto/sha256`)

The upload proxy derives the target object id as the lowercase-hex SHA-256
digest of the uploaded bytes.  We implement SHA-256 executably: 32-bit words
are naturals reduced mod 2^32. -/

/-- Reduce a natural to a 32-bit word. -/
def w32 (n : Nat) : Nat := n % 4294967296

/-- Rotate a 32-bit word right by `n` bits. -/
def rotr32 (n x : Nat) : Nat := w32 ((x >>> n) ||| (x <<< (32 - n)))

/-- SHA-256 big sigma-0. -/
def bigSigma0 (x : Nat) : Nat := rotr32 2 x ^^^ rotr32 13 x ^^^ rotr32 22 x

/-- SHA-256 big sigma-1. -/
def bigSigma1 (x : Nat) : Nat := rotr32 6 x ^^^ rotr32 11 x ^^^ rotr32 25 x

/-- SHA-256 small sigma-0. -/
def smallSigma0 (x : Nat) : Nat := rotr32 7 x ^^^ rotr32 18 x ^^^ (x >>> 3)

/-- SHA-256 small sigma-1. -/
def smallSigma1 (x : Nat) : Nat := rotr32 17 x ^^^ rotr32 19 x ^^^ (x >>> 10)

/-- SHA-256 choice function. -/
def chFn (e f g : Nat) : Nat := (e &&& f) ^^^ ((e ^^^ 4294967295) &&& g)

/-- SHA-256 majority function (symmetric, so the operand order is free). -/
def majFn (a b c : Nat) : Nat := (b &&& c) ^^^ ((c &&& a) ^^^ (a &&& b))

/-- The 64 SHA-256 round constants (decimal values of the FIPS 180-4 words). -/
def sha256K : List Nat :=
  [1116352408, 1899447441, 3049323471, 3921009573,
   961987163, 1508970993, 2453635748, 2870763221,
   3624381080, 310598401, 607225278, 1426881987,
   1925078388, 2162078206, 2614888103, 3248222580,
   3835390401, 4022224774, 264347078, 604807628,
   770255983, 1249150122, 1555081692, 1996064986,
   2554220882, 2821834349, 2952996808, 3210313671,
   3336571891, 3584528711, 113926993, 338241895,
   666307205, 773529912, 1294757372, 1396182291,
   1695183700, 1986661051, 2177026350, 2456956037,
   2730485921, 2820302411, 3259730800, 3345764771,
   3516065817, 3600352804, 4094571909, 275423344,
   430227734, 506948616, 659060556, 883997877,
   958139571, 1322822218, 1537002063, 1747873779,
   1955562222, 2024104815, 2227730452, 2361852424,
   2428436474, 2756734187, 3204031479, 3329325298]

/-- The eight SHA-256 working variables. -/
structure H8 where
  a : Nat
  b : Nat
  c : Nat
  d : Nat
  e : Nat
  f : Nat
  g : Nat
  h : Nat
deriving Repr, DecidableEq

/-- SHA-256 initial hash value (decimal values of the FIPS 180-4 words). -/
def sha256H0 : H8 :=
  ⟨1779033703, 3144134277, 1013904242, 2773480762,
   1359893119, 2600822924, 528734635, 1541459225⟩

/-- One SHA-256 compression round. -/
def sha256Step (st : H8) (k w : Nat) : H8 :=
  let t1 := w32 (st.h + bigSigma1 st.e + chFn st.e st.f st.g + k + w)
  let t2 := w32 (bigSigma0 st.a + majFn st.a st.b st.c)
  ⟨w32 (t1 + t2), st.a, st.b, st.c, w32 (st.d + t1), st.e, st.f, st.g⟩

/-- Next word of the message schedule, given the schedule so far with the
newest word at the head. -/
def nextScheduleWord (w : List Nat) : Nat :=
  w32 (smallSigma1 (w.getD 1 0) + w.getD 6 0 + smallSigma0 (w.getD 14 0) + w.getD 15 0)

/-- Extend the (reversed, newest-first) message schedule by `k` words. -/
def extendSchedule : Nat → List Nat → List Nat
  | 0, w => w
  | k + 1, w => extendSchedule k (nextScheduleWord w :: w)

/-- The full 64-word message schedule from the 16 words of one block. -/
def sha256Schedule (words16 : List Nat) : List Nat :=
  (extendSchedule 48 words16.reverse).reverse

/-- Compress one 16-word block into the running hash state. -/
def sha256Compress (st : H8) (words16 : List Nat) : H8 :=
  let ws := sha256Schedule words16
  let fin := (sha256K.zip ws).foldl (fun s kw => sha256Step s kw.1 kw.2) st
  ⟨w32 (st.a + fin.a), w32 (st.b + fin.b), w32 (st.c + fin.c), w32 (st.d + fin.d),
   w32 (st.e + fin.e), w32 (st.f + fin.f), w32 (st.g + fin.g), w32 (st.h + fin.h)⟩

/-- Big-endian 8-byte encoding of a length (in bits). -/
def be64 (n : Nat) : Bytes :=
  [(n >>> 56) % 256, (n >>> 48) % 256, (n >>> 40) % 256, (n >>> 32) % 256,
   (n >>> 24) % 256, (n >>> 16) % 256, (n >>> 8) % 256, n % 256]

/-- SHA-256 padding: append 0x80, zeros to 56 mod 64, then the bit length. -/
def sha256Pad (b : Bytes) : Bytes :=
  b ++ 128 :: List.replicate ((119 - b.length % 64) % 64) 0 ++ be64 (8 * b.length)

/-- Group a byte list into 32-bit big-endian words. -/
def bytesToWords : Bytes → List Nat
  | a :: b :: c :: d :: rest =>
      (a * 16777216 + b * 65536 + c * 256 + d) :: bytesToWords rest
  | _ => []

/-- Split a byte list into 64-byte blocks; the fuel argument only bounds the
recursion and is in practice at least the number of blocks. -/
def toBlocksFuel : Nat → Bytes → List Bytes
  | 0, _ => []
  | _, [] => []
  | fuel + 1, bs => bs.take 64 :: toBlocksFuel fuel (bs.drop 64)

/-- The eight 32-bit words of the SHA-256 digest of a byte string. -/
def sha256Words (b : Bytes) : List Nat :=
  let padded := sha256Pad b
  let blocks := toBlocksFuel padded.length padded
  let fin := blocks.foldl (fun st blk => sha256Compress st (bytesToWords blk)) sha256H0
  [fin.a, fin.b, fin.c, fin.d, fin.e, fin.f, fin.g, fin.h]

/-- The sixteen lowercase hex digits. -/
def hexDigits : List Char := "0123456789abcdef".toList

/-- The lowercase hex digit of `n % 16`. -/
def hexDigit (n : Nat) : Char := hexDigits.getD (n % 16) '0'

/-- Eight lowercase hex characters of a 32-bit word (matching `%x`). -/
def wordHexChars (x : Nat) : List Char :=
  [hexDigit (x >>> 28), hexDigit (x >>> 24), hexDigit (x >>> 20), hexDigit (x >>> 16),
   hexDigit (x >>> 12), hexDigit (x >>> 8), hexDigit (x >>> 4), hexDigit x]

/-- The lowercase-hex SHA-256 digest of a byte string, as the upload proxy
computes it (`fmt.Sprintf("%x", hasher.Sum(nil))`). -/
def sha256hex (b : Bytes) : String :=
  String.mk ((sha256Words b).map wordHexChars).flatten

/-- UTF-8 bytes of an ASCII string (all source strings of interest are ASCII). -/
def asciiBytes (s : String) : Bytes := s.toList.map Char.toNat

/-! Section: Node-side data model: blobs, stores, the StorageHandler interface -/

/-- One stored object: bytes plus its metadata map. -/
structure Blob where
  bytes : Bytes
  meta : Meta
deriving Repr, DecidableEq

/-- The contents of one node's persistence layer, keyed by object id. -/
abbrev BlobMap := List (String × Blob)

/-- Look up an id in a node's contents. -/
def BlobMap.lookupId : BlobMap → String → Option Blob
  | [], _ => none
  | (k, v) :: rest, id => if k == id then some v else BlobMap.lookupId rest id

/-- Insert (or overwrite) an id in a node's contents (FilesystemStorage
overwrites the file for an existing id). -/
def BlobMap.insertId (s : BlobMap) (id : String) (b : Blob) : BlobMap :=
  (id, b) :: s.filter (fun p => !(p.1 == id))

/-- The ids a node holds. -/
def BlobMap.ids (s : BlobMap) : List String := s.map Prod.fst

/-- The `StorageHandler` interface of the blob-server (`Exists`, `Get`,
`Store`, `Existing`), as pure query functions; `Get` returns `none` exactly
when the Go version returns a nil data pointer. -/
structure StorageHandler where
  Exists : String → Bool
  Get : String → Option Blob
  Store : String → Bytes → Meta → Bool
  Existing : List String

/-- The `StorageHandler` presented by a healthy node holding `s` (the
BlobStore collaborator satisfying its store/get contract). -/
def BlobMap.toHandler (s : BlobMap) : StorageHandler where
  Exists := fun id => (s.lookupId id).isSome
  Get := s.lookupId
  Store := fun _ _ _ => true
  Existing := s.ids

/-- A persistence-layer invocation performed by a handler. -/
inductive StoreCall where
  | existsQ (id : String)
  | getQ (id : String)
  | storeQ (id : String) (content : Bytes) (meta : Meta)
deriving Repr, DecidableEq

/-- Apply the state change of one persistence call to a node's contents. -/
def BlobMap.applyCall (s : BlobMap) : StoreCall → BlobMap
  | .storeQ id content meta => s.insertId id ⟨content, meta⟩
  | _ => s

/-- Apply a sequence of persistence calls. -/
def BlobMap.applyCalls (s : BlobMap) (cs : List StoreCall) : BlobMap :=
  cs.foldl BlobMap.applyCall s

/-! Section: HTTP model -/

/-- The three methods the blob-server routes to `/blob/{id}` handlers. -/
inductive Method where
  | GET
  | HEAD
  | POST
deriving Repr, DecidableEq

/-- An HTTP response: status (implicitly 200 when the Go handler writes a
body without calling WriteHeader), headers, body bytes. -/
structure HTTPResponse where
  status : Nat := 200
  headers : Headers := []
  body : Bytes := []
deriving Repr, DecidableEq

/-- A request as a `/blob/{id}` handler sees it: method, the mux `{id}`
variable, body bytes and headers. -/
structure NodeRequest where
  method : Method
  id : String
  body : Bytes
  headers : Headers
deriving Repr, DecidableEq

/-- `http.Header.Set`: replace the value of a name, or append it. -/
def headerSet (hs : Headers) (k v : String) : Headers :=
  if hs.any (fun kv => kv.1 == k) then
    hs.map (fun kv => if kv.1 == k then (k, v) else kv)
  else
    hs ++ [(k, v)]

/-- `http.Error(res, msg, status)`: plain-text error response. -/
def httpError (msg : String) (status : Nat) : HTTPResponse :=
  { status := status
    headers := [("Content-Type", "text/plain; charset=utf-8"),
                ("X-Content-Type-Options", "nosniff")]
    body := asciiBytes (msg ++ "\n") }

/-- `http.NotFound(res, req)`. -/
def httpNotFound : HTTPResponse := httpError "404 page not found" 404

/-- `io.ReadAll` on a fully-received body: Go's ReadAll never yields a nil
slice (it always returns its accumulation buffer), so this is always `some`. -/
def goReadAll (b : Bytes) : Option Bytes := some b

/-- One character of the `[a-z0-9]` class. -/
def isIdChar (c : Char) : Bool :=
  ('a' ≤ c && c ≤ 'z') || ('0' ≤ c && c ≤ '9')

/-- The id validation both node handlers perform:
`regexp.MustCompile("^([a-z0-9]+)$").MatchString(id)`. -/
def matchesIDRegex (s : String) : Bool :=
  !s.toList.isEmpty && s.toList.all isIdChar

/-- JSON string escaping as `encoding/json` performs it (quote, backslash,
HTML-significant characters, control characters). -/
def jsonEscapeChar (c : Char) : List Char :=
  if c == '"' then ['\\', '"']
  else if c == '\\' then ['\\', '\\']
  else if c == '\n' then ['\\', 'n']
  else if c == '\r' then ['\\', 'r']
  else if c == '\t' then ['\\', 't']
  else if c == '<' then ['\\', 'u', '0', '0', '3', 'c']
  else if c == '>' then ['\\', 'u', '0', '0', '3', 'e']
  else if c == '&' then ['\\', 'u', '0', '0', '2', '6']
  else if c.toNat < 32 then
    ['\\', 'u', '0', '0', hexDigit (c.toNat >>> 4), hexDigit c.toNat]
  else [c]

/-- `json.Marshal` of one string. -/
def jsonString (s : String) : String :=
  String.mk ('"' :: (s.toList.map jsonEscapeChar).flatten ++ ['"'])

/-- `json.Marshal` of a `[]string`. -/
def jsonStringList (l : List String) : String :=
  "[" ++ String.intercalate "," (l.map jsonString) ++ "]"

/-! Section: Blob-server handlers, refactored form (getStorage(), `part_002`)

Each handler returns the response it writes together with the list of
persistence-layer calls it performs. -/

/-- Response headers emitted by GetHandler from a blob's metadata: every key
is set as a header, and `X-Mime-Type` additionally sets `Content-Type`. -/
def metaHeaders (m : Meta) : Headers :=
  m.foldl
    (fun hs kv =>
      if kv.1 == "X-Mime-Type" then
        headerSet (headerSet hs kv.1 kv.2) "Content-Type" kv.2
      else headerSet hs kv.1 kv.2)
    []

/-- The extras map UploadHandler persists: request headers with the `X-`
extension name prefix. -/
def xHeaderExtras (hs : Headers) : Meta :=
  hs.filter (fun kv => kv.1.startsWith "X-")

/-- `GetHandler` (refactored, storage via getStorage()): GET/HEAD of
`/blob/{id}`. -/
def GetHandler (st : StorageHandler) (req : NodeRequest) : HTTPResponse × List StoreCall :=
  if !matchesIDRegex req.id then
    (httpError "alphanumeric IDs only" 500, [])
  else if req.method == Method.HEAD then
    let hs := headerSet [] "Connection" "close"
    if !(st.Exists req.id) then
      ({ status := 404, headers := hs, body := [] }, [.existsQ req.id])
    else
      ({ status := 200, headers := hs, body := [] }, [.existsQ req.id])
  else
    match st.Get req.id with
    | none => (httpNotFound, [.getQ req.id])
    | some blob =>
        ({ status := 200, headers := metaHeaders blob.meta, body := blob.bytes },
         [.getQ req.id])

/-- JSON acknowledgement UploadHandler writes on success. -/
def uploadOKBody (id : String) (size : Nat) : Bytes :=
  asciiBytes ("\x7b\"id\":\"" ++ id ++ "\",\"status\":\"OK\",\"size\":" ++ toString size ++ "\x7d")

/-- `UploadHandler` (refactored): POST of `/blob/{id}`. -/
def UploadHandler (st : StorageHandler) (req : NodeRequest) : HTTPResponse × List StoreCall :=
  if !matchesIDRegex req.id then
    (httpError "alphanumeric IDs only" 500, [])
  else
    let content := req.body
    let extras := xHeaderExtras req.headers
    if !(st.Store req.id content extras) then
      (httpError "failed to write to storage" 500, [.storeQ req.id content extras])
    else
      ({ status := 200, headers := [], body := uploadOKBody req.id content.length },
       [.storeQ req.id content extras])

/-- `ListHandler` (refactored): GET `/blobs`. -/
def ListHandler (st : StorageHandler) : HTTPResponse :=
  let list := st.Existing
  if list.length > 0 then
    { status := 200, headers := [], body := asciiBytes (jsonStringList list) }
  else
    { status := 200, headers := [], body := asciiBytes "[]" }

/-- `HealthHandler` (refactored): GET `/alive`. -/
def HealthHandler : HTTPResponse :=
  { status := 200, headers := [], body := asciiBytes "alive" }

/-- `MissingHandler` (refactored): fall-back route. -/
def MissingHandler : HTTPResponse :=
  { status := 404, headers := [], body := asciiBytes "404 - content is not hosted here." }

/-- The blob-server router for `/blob/{id}`: GET and HEAD go to GetHandler,
POST to UploadHandler. -/
def blobRoute (st : StorageHandler) (req : NodeRequest) : HTTPResponse × List StoreCall :=
  match req.method with
  | .GET => GetHandler st req
  | .HEAD => GetHandler st req
  | .POST => UploadHandler st req

/-! Section: Blob-server handlers, legacy form (package-level STORAGE, `part_003`) -/

/-- `GetHandler` (legacy STORAGE form). -/
def GetHandlerLegacy (st : StorageHandler) (req : NodeRequest) : HTTPResponse × List StoreCall :=
  if !matchesIDRegex req.id then
    (httpError "alphanumeric IDs only" 500, [])
  else if req.method == Method.HEAD then
    let hs := headerSet [] "Connection" "close"
    if st.Exists req.id then
      ({ status := 200, headers := hs, body := [] }, [.existsQ req.id])
    else
      ({ status := 404, headers := hs, body := [] }, [.existsQ req.id])
  else
    match st.Get req.id with
    | none => (httpNotFound, [.getQ req.id])
    | some blob =>
        ({ status := 200, headers := metaHeaders blob.meta, body := blob.bytes },
         [.getQ req.id])

/-- `UploadHandler` (legacy STORAGE form). -/
def UploadHandlerLegacy (st : StorageHandler) (req : NodeRequest) : HTTPResponse × List StoreCall :=
  if !matchesIDRegex req.id then
    (httpError "alphanumeric IDs only" 500, [])
  else
    let content := req.body
    let extras := xHeaderExtras req.headers
    if !(st.Store req.id content extras) then
      (httpError "failed to write to storage" 500, [.storeQ req.id content extras])
    else
      ({ status := 200, headers := [], body := uploadOKBody req.id content.length },
       [.storeQ req.id content extras])

/-- `ListHandler` (legacy STORAGE form). -/
def ListHandlerLegacy (st : StorageHandler) : HTTPResponse :=
  if st.Existing.length > 0 then
    { status := 200, headers := [], body := asciiBytes (jsonStringList st.Existing) }
  else
    { status := 200, headers := [], body := asciiBytes "[]" }

/-- `HealthHandler` (legacy form, `res.Write([]byte("alive"))`). -/
def HealthHandlerLegacy : HTTPResponse :=
  { status := 200, headers := [], body := asciiBytes "alive" }

/-- `MissingHandler` (legacy form, via `fmt.Fprintf`). -/
def MissingHandlerLegacy : HTTPResponse :=
  { status := 404, headers := [], body := asciiBytes "404 - content is not hosted here." }

/-! Section: The world: a fleet of nodes addressed by location

A location is the base URL of one blob-server; the world maps each location
to that node's contents.  Network calls from the proxies and the replicator
are modelled as direct invocations of the node handlers. -/

/-- A node location (base URL). -/
abbrev Loc := String

/-- The state of all nodes. -/
abbrev World := Loc → BlobMap

/-- The contents of the node at a location. -/
def World.findStore (w : World) (loc : Loc) : BlobMap := w loc

/-- Replace the contents of the node at a location. -/
def World.setStore (w : World) (loc : Loc) (st : BlobMap) : World :=
  fun l => if l == loc then st else w l

/-- The response of a healthy node to a request (routing through the
blob-server handlers over its current contents). -/
def nodeRespond (st : BlobMap) (req : NodeRequest) : HTTPResponse :=
  (blobRoute st.toHandler req).1

/-- The contents of a node after handling a request. -/
def nodeAfter (st : BlobMap) (req : NodeRequest) : BlobMap :=
  st.applyCalls (blobRoute st.toHandler req).2

/-! Section: Upload proxy (`APIUploadHandler`) -/

/-- Copy the `X-` prefixed headers of `src` onto a fresh header map, as all
three forwarding sites do (`strings.HasPrefix(header, "X-")` guarding
`child.Header.Set` / `res.Header().Set`). -/
def copyXHeaders (src : Headers) : Headers :=
  src.foldl
    (fun acc kv => if kv.1.startsWith "X-" then headerSet acc kv.1 kv.2 else acc)
    []

/-- The 500 response APIUploadHandler sends when every candidate failed. -/
def uploadFailedResponse : HTTPResponse :=
  { status := 500, headers := [], body := asciiBytes "\x7b\"error\":\"upload failed\"\x7d" }

/-- One POST the upload proxy issues to a candidate node. -/
structure PostReq where
  loc : Loc
  id : String
  body : Bytes
  headers : Headers
deriving Repr, DecidableEq

/-- `APIUploadHandler` over an abstract network: `net loc` is `none` when the
POST to that candidate fails in transport, otherwise the node's response.
Returns the response written to the caller and the trace of POSTs issued.
The proxy hashes the received bytes once, then walks the candidate order;
on the first candidate whose POST returns without a transport error it
forwards that node's raw response body (Go's ReadAll never yields nil, so
the nil-check branch never recurs) and stops. -/
def apiUploadTrace (net : Loc → Option HTTPResponse) :
    List Loc → Bytes → Headers → HTTPResponse × List PostReq
  | [], _, _ => (uploadFailedResponse, [])
  | s :: rest, body, hdrs =>
      let id := sha256hex body
      let post : PostReq := ⟨s, id, body, copyXHeaders hdrs⟩
      match net s with
      | none =>
          ((apiUploadTrace net rest body hdrs).1,
           post :: (apiUploadTrace net rest body hdrs).2)
      | some resp =>
          match goReadAll resp.body with
          | some b => ({ body := b }, [post])
          | none =>
              ((apiUploadTrace net rest body hdrs).1,
               post :: (apiUploadTrace net rest body hdrs).2)

/-- `APIUploadHandler` end-to-end over a world of healthy nodes: the first
candidate processes the POST of `(sha256hex body, body, X-headers)`; its raw
response body is forwarded to the caller. -/
def apiUploadWorld (order : List Loc) (w : World) (body : Bytes) (hdrs : Headers) :
    World × HTTPResponse :=
  match order with
  | [] => (w, uploadFailedResponse)
  | s :: rest =>
      let id := sha256hex body
      let req : NodeRequest := ⟨Method.POST, id, body, copyXHeaders hdrs⟩
      let resp := nodeRespond (w.findStore s) req
      let w' := w.setStore s (nodeAfter (w.findStore s) req)
      match goReadAll resp.body with
      | some b => (w', { body := b })
      | none => apiUploadWorld rest w' body hdrs

/-! Section: Download proxy (`APIDownloadHandler`) -/

/-- `handleSuccessfulDownload`: reads the node's body (never nil), answers a
HEAD probe with a bare 200 and `Connection: close`, and for a content fetch
copies the `X-` response headers forward and streams the body. -/
def handleSuccessfulDownload (method : Method) (response : HTTPResponse) :
    Option HTTPResponse :=
  match goReadAll response.body with
  | none => none
  | some body =>
      if method == Method.HEAD then
        some { status := 200, headers := headerSet [] "Connection" "close", body := [] }
      else
        some { status := 200, headers := copyXHeaders response.headers, body := body }

/-- The outcome of one network call. -/
inductive NetResult where
  | transportErr
  | reply (resp : HTTPResponse)
deriving Repr, DecidableEq

/-- `tryDownloadFromServer`: a transport error or a non-200 status fails the
candidate; otherwise the response is handed to `handleSuccessfulDownload`.
`none` means the proxy proceeds to the next candidate. -/
def tryDownloadFromServer (result : NetResult) (method : Method) : Option HTTPResponse :=
  match result with
  | .transportErr => none
  | .reply response =>
      if response.status != 200 then none
      else handleSuccessfulDownload method response

/-- The proxy's not-found response when every candidate failed. -/
def downloadNotFoundResponse : HTTPResponse :=
  { status := 404, headers := headerSet [] "Connection" "close", body := [] }

/-- The retry loop of `APIDownloadHandler` over a world of healthy nodes:
each candidate receives a GET of `/blob/{id}` (the node call is a GET even
when the client sent HEAD). -/
def apiDownloadLoop (w : World) (method : Method) (id : String) :
    List Loc → HTTPResponse
  | [] => downloadNotFoundResponse
  | s :: rest =>
      let nodeResp := nodeRespond (w.findStore s) ⟨Method.GET, id, [], []⟩
      match tryDownloadFromServer (.reply nodeResp) method with
      | some resp => resp
      | none => apiDownloadLoop w method id rest

/-- `filepath.Ext` scan: length of the suffix beginning at the final dot of
the reversed character list (stopping at a path separator), if any. -/
def extScan : List Char → Nat → Option Nat
  | [], _ => none
  | c :: rest, k =>
      if c == '/' then none
      else if c == '.' then some (k + 1)
      else extScan rest (k + 1)

/-- Length of `filepath.Ext id`. -/
def extLen (s : String) : Nat := (extScan s.toList.reverse 0).getD 0

/-- `id = id[0 : len(id)-len(extension)]`: strip any trailing filename
extension from the requested id. -/
def stripExtension (s : String) : String :=
  String.mk (s.toList.take (s.length - extLen s))

/-- `APIDownloadHandler`: strip the extension from the mux `{id}` variable,
then walk the candidate order; 404 with `Connection: close` if every
candidate fails. -/
def apiDownloadWorld (order : List Loc) (w : World) (method : Method)
    (rawId : String) : HTTPResponse :=
  apiDownloadLoop w method (stripExtension rawId) order

/-! Section: Replication engine (`cmd_replicate.go`) -/

/-- The outcome of one member's `/blobs` listing call as `Objects` sees it. -/
inductive ListingOutcome where
  | transportErr
  | readErr
  | jsonErr
  | ok (ids : List String)
deriving Repr, DecidableEq

/-- `Objects`: a transport error is fatal (`os.Exit(1)`, modelled as
`Sum.inl` of the exit status); a body-read or JSON-decode failure returns a
nil listing; otherwise the decoded ids. -/
def ObjectsGo : ListingOutcome → Sum Nat (Option (List String))
  | .transportErr => Sum.inl 1
  | .readErr => Sum.inr none
  | .jsonErr => Sum.inr none
  | .ok ids => Sum.inr (some ids)

/-- The listings map `SyncGroup` builds (`objects[s.Location] = Objects(...)`),
with a process exit propagated from the first failing member. -/
def collectListings (ls : Loc → ListingOutcome) :
    List Loc → Sum Nat (List (Loc × Option (List String)))
  | [] => Sum.inr []
  | s :: rest =>
      match ObjectsGo (ls s) with
      | Sum.inl code => Sum.inl code
      | Sum.inr objs =>
          match collectListings ls rest with
          | Sum.inl code => Sum.inl code
          | Sum.inr t => Sum.inr ((s, objs) :: t)

/-- The objects recorded for one member: a nil listing ranges zero times. -/
def lookupListing (listings : List (Loc × Option (List String))) (loc : Loc) :
    List String :=
  match listings.find? (fun p => p.1 == loc) with
  | some (_, some ids) => ids
  | _ => []

/-- `HasObject`: HEAD `/blob/{obj}` against a node, true exactly on a 200. -/
def hasObjectNode (st : BlobMap) (obj : String) : Bool :=
  (nodeRespond st ⟨Method.HEAD, obj, [], []⟩).status == 200

/-- `MirrorObject` over a world of healthy nodes: GET the object from `src`
(whatever the response, only a transport error aborts), copy the `X-`
response headers onto the POST, and store the downloaded body at `dst`. -/
def mirrorObject (w : World) (src dst : Loc) (obj : String) : World :=
  let resp := nodeRespond (w.findStore src) ⟨Method.GET, obj, [], []⟩
  let req : NodeRequest := ⟨Method.POST, obj, resp.body, copyXHeaders resp.headers⟩
  w.setStore dst (nodeAfter (w.findStore dst) req)

/-- Innermost `SyncGroup` loop: mirror one object from `server` to every
other member that does not currently report it, counting copies. -/
def mirrorsLoop (src : Loc) (obj : String) :
    World × Nat → List Loc → World × Nat
  | acc, [] => acc
  | acc, m :: rest =>
      if m == src then mirrorsLoop src obj acc rest
      else if hasObjectNode (acc.1.findStore m) obj then mirrorsLoop src obj acc rest
      else mirrorsLoop src obj (mirrorObject acc.1 src m obj, acc.2 + 1) rest

/-- Middle `SyncGroup` loop: all objects listed for one member. -/
def objsLoop (allServers : List Loc) (src : Loc) :
    World × Nat → List String → World × Nat
  | acc, [] => acc
  | acc, obj :: rest => objsLoop allServers src (mirrorsLoop src obj acc allServers) rest

/-- Outer `SyncGroup` loop over the members. -/
def serversLoop (allServers : List Loc) (listings : List (Loc × Option (List String))) :
    World × Nat → List Loc → World × Nat
  | acc, [] => acc
  | acc, s :: rest =>
      serversLoop allServers listings (objsLoop allServers s acc (lookupListing listings s)) rest

/-- The mirroring phase of `SyncGroup`, given the listings gathered at pass
start. -/
def mirrorPhase (servers : List Loc) (listings : List (Loc × Option (List String)))
    (w : World) : World × Nat :=
  serversLoop servers listings (w, 0) servers

/-- `SyncGroup` with per-member listing outcomes: gather every member's
listing (a transport error exits the process), then reconcile pairwise.
Returns the exit status, or the final world and the number of copies. -/
def syncGroupR (servers : List Loc) (ls : Loc → ListingOutcome) (w : World) :
    Sum Nat (World × Nat) :=
  match collectListings ls servers with
  | Sum.inl code => Sum.inl code
  | Sum.inr listings => Sum.inr (mirrorPhase servers listings w)

/-- `SyncGroup` over healthy members: every listing call succeeds and returns
the member's current ids. -/
def syncGroupPure (servers : List Loc) (w : World) : World × Nat :=
  mirrorPhase servers (servers.map (fun s => (s, some (w.findStore s).ids))) w

/-- The effective listing a member contributes to a pass: decode failures
contribute a nil listing. -/
def effectiveListing : ListingOutcome → Option (List String)
  | .ok ids => some ids
  | _ => none

/-- A group of two nodes with given contents (all other locations empty). -/
def twoNodeWorld (na nb : Loc) (sa sb : BlobMap) : World :=
  fun l => if l == na then sa else if l == nb then sb else []

/-! Section: Helper lemmas -/

theorem findStore_setStore_self (w : World) (l : Loc) (st : BlobMap) :
    (w.setStore l st).findStore l = st := by
  simp [World.setStore, World.findStore]

theorem findStore_setStore_ne (w : World) (l l' : Loc) (st : BlobMap)
    (h : l' ≠ l) : (w.setStore l st).findStore l' = w.findStore l' := by
  simp [World.setStore, World.findStore, h]

theorem lookupId_insertId_self (s : BlobMap) (id : String) (b : Blob) :
    (s.insertId id b).lookupId id = some b := by
  simp [BlobMap.insertId, BlobMap.lookupId]

theorem lookupId_filter_ne (s : BlobMap) (id id' : String) (h : id' ≠ id) :
    BlobMap.lookupId (s.filter (fun p => !(p.1 == id))) id' = s.lookupId id' := by
  induction s with
  | nil => rfl
  | cons p t ih =>
      by_cases hp : p.1 = id
      · have h1 : (p.1 == id) = true := beq_iff_eq.mpr hp
        have h2 : (p.1 == id') = false :=
          beq_eq_false_iff_ne.mpr (by rw [hp]; exact fun hc => h hc.symm)
        simp [List.filter_cons, h1, BlobMap.lookupId, h2, ih]
      · have h1 : (p.1 == id) = false := beq_eq_false_iff_ne.mpr hp
        by_cases hq : p.1 = id'
        · have h2 : (p.1 == id') = true := beq_iff_eq.mpr hq
          simp [List.filter_cons, h1, BlobMap.lookupId, h2]
        · have h2 : (p.1 == id') = false := beq_eq_false_iff_ne.mpr hq
          simp [List.filter_cons, h1, BlobMap.lookupId, h2, ih]

theorem lookupId_insertId_ne (s : BlobMap) (id id' : String) (b : Blob)
    (h : id' ≠ id) : (s.insertId id b).lookupId id' = s.lookupId id' := by
  have hne : (id == id') = false := beq_eq_false_iff_ne.mpr (fun hc => h hc.symm)
  simp [BlobMap.insertId, BlobMap.lookupId, hne, lookupId_filter_ne s id id' h]

theorem hexDigit_ok (n : Nat) : isIdChar (hexDigit n) = true := by
  have h16 : ∀ m, m < 16 → isIdChar (hexDigits.getD m '0') = true := by decide
  exact h16 (n % 16) (Nat.mod_lt n (by decide))

theorem sha256hex_chars (b : Bytes) :
    ∀ c ∈ (sha256hex b).toList, isIdChar c = true := by
  intro c hc
  have hc' : c ∈ ((sha256Words b).map wordHexChars).flatten := hc
  rw [List.mem_flatten] at hc'
  obtain ⟨l, hl, hcl⟩ := hc'
  rw [List.mem_map] at hl
  obtain ⟨x, _, hx⟩ := hl
  subst hx
  simp only [wordHexChars, List.mem_cons, List.not_mem_nil, or_false] at hcl
  rcases hcl with h | h | h | h | h | h | h | h <;> (subst h; exact hexDigit_ok _)

theorem sha256hex_valid (b : Bytes) : matchesIDRegex (sha256hex b) = true := by
  simp only [matchesIDRegex, Bool.and_eq_true, Bool.not_eq_true']
  refine ⟨?_, List.all_eq_true.mpr (sha256hex_chars b)⟩
  have hd : (sha256hex b).toList = ((sha256Words b).map wordHexChars).flatten := rfl
  simp only [List.isEmpty_eq_false_iff_exists_mem]
  exact ⟨hexDigit ((sha256Words b).getD 0 0 >>> 28), by
    rw [hd]
    refine List.mem_flatten.mpr ⟨wordHexChars ((sha256Words b).getD 0 0), ?_, ?_⟩
    · exact List.mem_map.mpr ⟨(sha256Words b).getD 0 0, by simp [sha256Words], rfl⟩
    · simp [wordHexChars]⟩

theorem extScan_no_dot (cs : List Char)
    (h : ∀ c ∈ cs, (c == '.') = false ∧ (c == '/') = false) :
    ∀ k, extScan cs k = none := by
  induction cs with
  | nil => intro k; rfl
  | cons c t ih =>
      intro k
      have hc := h c (List.mem_cons_self c t)
      simp [extScan, hc.1, hc.2]
      exact ih (fun x hx => h x (List.mem_cons_of_mem c hx)) (k + 1)

theorem stripExtension_id (s : String)
    (h : ∀ c ∈ s.toList, isIdChar c = true) : stripExtension s = s := by
  have hnd : ∀ c ∈ s.toList.reverse, (c == '.') = false ∧ (c == '/') = false := by
    intro c hc
    rw [List.mem_reverse] at hc
    have := h c hc
    constructor
    · refine beq_eq_false_iff_ne.mpr ?_
      intro he; subst he; simp [isIdChar] at this
    · refine beq_eq_false_iff_ne.mpr ?_
      intro he; subst he; simp [isIdChar] at this
  have h0 : extScan s.toList.reverse 0 = none := extScan_no_dot _ hnd 0
  have hext : extLen s = 0 := by
    simp only [extLen]
    rw [show s.toList.reverse = s.data.reverse from rfl] at h0
    simp [h0]
  have hlen : s.length = s.toList.length := rfl
  simp only [stripExtension, hext, Nat.sub_zero, hlen, List.take_length]
  rfl

theorem stripExtension_sha256hex (b : Bytes) :
    stripExtension (sha256hex b) = sha256hex b :=
  stripExtension_id _ (sha256hex_chars b)

theorem nodeGet_found (st : BlobMap) (obj : String) (blob : Blob)
    (hv : matchesIDRegex obj = true) (hl : st.lookupId obj = some blob) :
    nodeRespond st ⟨Method.GET, obj, [], []⟩ =
      { status := 200, headers := metaHeaders blob.meta, body := blob.bytes } := by
  simp [nodeRespond, blobRoute, GetHandler, hv, BlobMap.toHandler, hl]

theorem nodeGet_missing (st : BlobMap) (obj : String)
    (hv : matchesIDRegex obj = true) (hl : st.lookupId obj = none) :
    nodeRespond st ⟨Method.GET, obj, [], []⟩ = httpNotFound := by
  simp [nodeRespond, blobRoute, GetHandler, hv, BlobMap.toHandler, hl]

theorem nodeGet_invalid (st : BlobMap) (obj : String)
    (hv : matchesIDRegex obj = false) :
    nodeRespond st ⟨Method.GET, obj, [], []⟩ =
      httpError "alphanumeric IDs only" 500 := by
  simp [nodeRespond, blobRoute, GetHandler, hv]

theorem nodePost_eq (st : BlobMap) (obj : String) (body : Bytes) (hdrs : Headers)
    (hv : matchesIDRegex obj = true) :
    blobRoute st.toHandler ⟨Method.POST, obj, body, hdrs⟩ =
      ({ status := 200, headers := [], body := uploadOKBody obj body.length },
       [.storeQ obj body (xHeaderExtras hdrs)]) := by
  simp [blobRoute, UploadHandler, hv, BlobMap.toHandler]

theorem nodeAfter_post (st : BlobMap) (obj : String) (body : Bytes) (hdrs : Headers)
    (hv : matchesIDRegex obj = true) :
    nodeAfter st ⟨Method.POST, obj, body, hdrs⟩ =
      st.insertId obj ⟨body, xHeaderExtras hdrs⟩ := by
  simp [nodeAfter, nodePost_eq st obj body hdrs hv, BlobMap.applyCalls, BlobMap.applyCall]

theorem hasObjectNode_eq (st : BlobMap) (obj : String)
    (hv : matchesIDRegex obj = true) :
    hasObjectNode st obj = (st.lookupId obj).isSome := by
  cases h : (st.lookupId obj).isSome with
  | true =>
      simp [hasObjectNode, nodeRespond, blobRoute, GetHandler, hv, BlobMap.toHandler, h]
  | false =>
      simp [hasObjectNode, nodeRespond, blobRoute, GetHandler, hv, BlobMap.toHandler, h]

theorem mirrorObject_eq (w : World) (src dst : Loc) (obj : String) (blob : Blob)
    (hv : matchesIDRegex obj = true)
    (hl : (w.findStore src).lookupId obj = some blob) :
    mirrorObject w src dst obj =
      w.setStore dst ((w.findStore dst).insertId obj
        ⟨blob.bytes, xHeaderExtras (copyXHeaders (metaHeaders blob.meta))⟩) := by
  rw [mirrorObject, nodeGet_found _ _ _ hv hl]
  rw [nodeAfter_post _ _ _ _ hv]

/-! Section: Claim theorems -/

/-- C10: for every request and every storage state, the refactored
blob-server handlers (reaching storage via getStorage()) produce the same
response status, headers and body — and the same persistence calls — as the
legacy package-level-STORAGE versions. -/
theorem blobServer_handlers_refactored_equivalent
    (st : StorageHandler) (req : NodeRequest) :
    GetHandler st req = GetHandlerLegacy st req ∧
    UploadHandler st req = UploadHandlerLegacy st req ∧
    ListHandler st = ListHandlerLegacy st ∧
    HealthHandler = HealthHandlerLegacy ∧
    MissingHandler = MissingHandlerLegacy := by
  refine ⟨?_, rfl, rfl, rfl, rfl⟩
  unfold GetHandler GetHandlerLegacy
  cases h : st.Exists req.id <;> simp [h]

/-- C7: for every id requested at a storage node's `/blob/{id}` endpoint
(GET, HEAD or POST), if the id does not match `^[a-z0-9]+$` the node
responds 500 with an error body and performs no persistence call. -/
theorem invalid_id_rejected_before_storage
    (st : StorageHandler) (method : Method) (id : String)
    (body : Bytes) (hdrs : Headers)
    (h : matchesIDRegex id = false) :
    blobRoute st ⟨method, id, body, hdrs⟩ =
      (httpError "alphanumeric IDs only" 500, []) := by
  cases method <;> simp [blobRoute, GetHandler, UploadHandler, h]

/-- C7 witness: the traversal id from the spec's scenario is rejected with
a 500 and an empty persistence-call trace. -/
theorem invalid_id_rejected_before_storage_witness :
    matchesIDRegex "../etc/passwd" = false ∧
    blobRoute (BlobMap.toHandler []) ⟨Method.GET, "../etc/passwd", [], []⟩ =
      (httpError "alphanumeric IDs only" 500, []) :=
  ⟨by decide,
   invalid_id_rejected_before_storage (BlobMap.toHandler []) Method.GET
     "../etc/passwd" [] [] (by decide)⟩

theorem uploadTrace_mem (net : Loc → Option HTTPResponse) (order : List Loc)
    (body : Bytes) (hdrs : Headers) (p : PostReq)
    (hp : p ∈ (apiUploadTrace net order body hdrs).2) :
    p.id = sha256hex body ∧ p.body = body ∧ p.headers = copyXHeaders hdrs := by
  induction order with
  | nil => simp [apiUploadTrace] at hp
  | cons s rest ih =>
      cases hnet : net s with
      | none =>
          simp only [apiUploadTrace, hnet, List.mem_cons] at hp
          rcases hp with h | h
          · subst h; exact ⟨rfl, rfl, rfl⟩
          · exact ih h
      | some resp =>
          simp only [apiUploadTrace, hnet, goReadAll, List.mem_cons,
            List.not_mem_nil, or_false] at hp
          subst hp; exact ⟨rfl, rfl, rfl⟩

theorem uploadTrace_all_fail (net : Loc → Option HTTPResponse) (order : List Loc)
    (body : Bytes) (hdrs : Headers)
    (h : ∀ x ∈ order, net x = none) :
    apiUploadTrace net order body hdrs =
      (uploadFailedResponse,
       order.map (fun l => ⟨l, sha256hex body, body, copyXHeaders hdrs⟩)) := by
  induction order with
  | nil => rfl
  | cons s rest ih =>
      have hs : net s = none := h s (List.mem_cons_self s rest)
      have ht := ih (fun x hx => h x (List.mem_cons_of_mem s hx))
      simp [apiUploadTrace, hs, ht]

theorem uploadTrace_first_success (net : Loc → Option HTTPResponse)
    (pre : List Loc) (s : Loc) (rest : List Loc)
    (body : Bytes) (hdrs : Headers) (resp : HTTPResponse)
    (hpre : ∀ x ∈ pre, net x = none) (hs : net s = some resp) :
    apiUploadTrace net (pre ++ s :: rest) body hdrs =
      ({ body := resp.body },
       (pre ++ [s]).map (fun l => ⟨l, sha256hex body, body, copyXHeaders hdrs⟩)) := by
  induction pre with
  | nil => simp [apiUploadTrace, hs, goReadAll]
  | cons q t ih =>
      have hq : net q = none := hpre q (List.mem_cons_self q t)
      have ht := ih (fun x hx => hpre x (List.mem_cons_of_mem q hx))
      simp [apiUploadTrace, hq, ht]

theorem uploadTrace_success_status (net : Loc → Option HTTPResponse)
    (order : List Loc) (body : Bytes) (hdrs : Headers) (s : Loc)
    (hmem : s ∈ order) (hs : (net s).isSome = true) :
    (apiUploadTrace net order body hdrs).1.status = 200 := by
  induction order with
  | nil => simp at hmem
  | cons q rest ih =>
      cases hq : net q with
      | none =>
          have hsq : s ≠ q := fun he => by rw [he, hq] at hs; simp at hs
          have hmem' : s ∈ rest := by
            rcases List.mem_cons.mp hmem with h | h
            · exact absurd h hsq
            · exact h
          simp only [apiUploadTrace, hq]
          exact ih hmem'
      | some resp => simp [apiUploadTrace, hq, goReadAll]

set_option maxRecDepth 40000 in
/-- C2: the upload proxy hashes exactly the received bytes with SHA-256,
hex-encodes the digest in lowercase, and targets that id on every candidate
POST it issues; in particular the digest of the body "hello" is the expected
hex string. -/
theorem upload_targets_sha256_of_body :
    (∀ (net : Loc → Option HTTPResponse) (order : List Loc) (body : Bytes)
       (hdrs : Headers) (p : PostReq),
       p ∈ (apiUploadTrace net order body hdrs).2 →
       p.id = sha256hex body ∧ p.body = body) ∧
    sha256hex (asciiBytes "hello") =
      "2cf24dba5fb0a30e26e83b2ac5b9e29e1b161e5c1fa7425e73043362938b9824" := by
  constructor
  · intro net order body hdrs p hp
    exact ⟨(uploadTrace_mem net order body hdrs p hp).1,
           (uploadTrace_mem net order body hdrs p hp).2.1⟩
  · decide

/-- C2 witness: on a concrete candidate list, the POST issued to the single
candidate carries the digest id. -/
theorem upload_targets_sha256_of_body_witness :
    (⟨"node1", sha256hex (asciiBytes "hello"), asciiBytes "hello", []⟩ : PostReq) ∈
      (apiUploadTrace (fun _ => none) ["node1"] (asciiBytes "hello") []).2 ∧
    (⟨"node1", sha256hex (asciiBytes "hello"), asciiBytes "hello", []⟩ : PostReq).id =
      sha256hex (asciiBytes "hello") :=
  ⟨by simp [apiUploadTrace, copyXHeaders],
   (upload_targets_sha256_of_body.1 (fun _ => none) ["node1"] (asciiBytes "hello") []
     ⟨"node1", sha256hex (asciiBytes "hello"), asciiBytes "hello", []⟩
     (by simp [apiUploadTrace, copyXHeaders])).1⟩

/-- C5: the upload proxy stops at the first candidate whose POST returns
without a transport error, forwarding that node's raw response body verbatim
and issuing no POST to any later candidate; it answers 500 with the JSON
upload-failure payload exactly when every candidate fails. -/
theorem upload_first_acceptor_wins :
    (∀ (net : Loc → Option HTTPResponse) (pre : List Loc) (s : Loc)
       (rest : List Loc) (body : Bytes) (hdrs : Headers) (resp : HTTPResponse),
       (∀ x ∈ pre, net x = none) → net s = some resp →
       apiUploadTrace net (pre ++ s :: rest) body hdrs =
         ({ body := resp.body },
          (pre ++ [s]).map (fun l => ⟨l, sha256hex body, body, copyXHeaders hdrs⟩))) ∧
    (∀ (net : Loc → Option HTTPResponse) (order : List Loc)
       (body : Bytes) (hdrs : Headers),
       (∀ x ∈ order, net x = none) →
       apiUploadTrace net order body hdrs =
         (uploadFailedResponse,
          order.map (fun l => ⟨l, sha256hex body, body, copyXHeaders hdrs⟩))) ∧
    (∀ (net : Loc → Option HTTPResponse) (order : List Loc)
       (body : Bytes) (hdrs : Headers) (s : Loc),
       s ∈ order → (net s).isSome = true →
       (apiUploadTrace net order body hdrs).1.status = 200) :=
  ⟨uploadTrace_first_success, uploadTrace_all_fail, uploadTrace_success_status⟩

/-- Network used by the C5 witness: one unreachable candidate, then one that
replies. -/
def netC5 : Loc → Option HTTPResponse :=
  fun l => if l == "up2" then some { status := 200, headers := [], body := [7, 8] } else none

/-- C5 witness: with candidates up1 (transport error) and up2 (replies), the
proxy forwards up2's body and issues POSTs to up1 and up2 only. -/
theorem upload_first_acceptor_wins_witness :
    (∀ x ∈ (["up1"] : List Loc), netC5 x = none) ∧
    netC5 "up2" = some { status := 200, headers := [], body := [7, 8] } ∧
    apiUploadTrace netC5 (["up1"] ++ "up2" :: ["up3"]) [5] [] =
      ({ body := [7, 8] },
       (["up1"] ++ ["up2"]).map (fun l => ⟨l, sha256hex [5], [5], copyXHeaders []⟩)) :=
  ⟨by decide, by decide,
   upload_first_acceptor_wins.1 netC5 ["up1"] "up2" ["up3"] [5] []
     { status := 200, headers := [], body := [7, 8] } (by decide) (by decide)⟩

/-- C4 counterexample: a candidate answering 200 with an empty body is
treated as a success, not a failure — `handleSuccessfulDownload` accepts it
(io.ReadAll never returns a nil slice) — and the download loop stops there
even when a later candidate holds a non-empty copy. -/
theorem download_empty_body_counterexample :
    tryDownloadFromServer (.reply { status := 200, headers := [], body := [] }) Method.GET =
      some { status := 200, headers := [], body := [] } ∧
    apiDownloadLoop
      (fun l => if l == "d1" then [("idempty", ⟨[], []⟩)]
                else if l == "d2" then [("idempty", ⟨[9], []⟩)] else [])
      Method.GET "idempty" ["d1", "d2"] =
      { status := 200, headers := [], body := [] } := by
  constructor
  · rfl
  · rfl

/-- C4 (amended): a download candidate is treated as successful exactly when
its reply arrives without a transport error and carries a 200 status; the
nil-body rejection in `handleSuccessfulDownload` can never fire because
io.ReadAll yields a non-nil (possibly empty) slice, so an empty 200 body is
also a success. -/
theorem download_candidate_success_iff (r : NetResult) (m : Method) :
    (tryDownloadFromServer r m).isSome = true ↔
      ∃ resp, r = NetResult.reply resp ∧ resp.status = 200 := by
  cases r with
  | transportErr => simp [tryDownloadFromServer]
  | reply resp =>
      by_cases h : resp.status = 200
      · simp only [tryDownloadFromServer, h]
        cases m <;> simp [handleSuccessfulDownload, goReadAll, h]
      · simp [tryDownloadFromServer, h]

/-- C9: the download proxy strips any trailing filename extension from the
requested id before node lookup, and answers not-found (with a
connection-close signal) when no candidate holds the stripped id. -/
theorem download_strips_extension_and_404 :
    (∀ (order : List Loc) (w : World) (m : Method) (rawId : String),
       (∀ s ∈ order, (w.findStore s).lookupId (stripExtension rawId) = none) →
       apiDownloadWorld order w m rawId = downloadNotFoundResponse) ∧
    (∀ (order : List Loc) (w : World) (m : Method),
       apiDownloadWorld order w m "abc123.png" = apiDownloadWorld order w m "abc123") ∧
    stripExtension "abc123.png" = "abc123" := by
  refine ⟨?_, ?_, by decide⟩
  · intro order w m rawId h
    unfold apiDownloadWorld
    induction order with
    | nil => rfl
    | cons s rest ih =>
        have hs : (w.findStore s).lookupId (stripExtension rawId) = none :=
          h s (List.mem_cons_self s rest)
        have hrest := ih (fun x hx => h x (List.mem_cons_of_mem s hx))
        cases hv : matchesIDRegex (stripExtension rawId) with
        | true =>
            rw [apiDownloadLoop, nodeGet_missing _ _ hv hs]
            simpa [tryDownloadFromServer, httpNotFound, httpError] using hrest
        | false =>
            rw [apiDownloadLoop, nodeGet_invalid _ _ hv]
            simpa [tryDownloadFromServer, httpError] using hrest
  · intro order w m
    unfold apiDownloadWorld
    rw [show stripExtension "abc123.png" = "abc123" from by decide,
        show stripExtension "abc123" = "abc123" from by decide]

/-- C9 witness: a one-node world without the id answers 404 for a request
carrying an extension. -/
theorem download_strips_extension_and_404_witness :
    (∀ s ∈ (["dn1"] : List Loc),
       (World.findStore (fun _ => []) s).lookupId (stripExtension "abc123.png") = none) ∧
    apiDownloadWorld ["dn1"] (fun _ => []) Method.GET "abc123.png" =
      downloadNotFoundResponse :=
  ⟨by intro s _; rfl,
   download_strips_extension_and_404.1 ["dn1"] (fun _ => []) Method.GET "abc123.png"
     (by intro s _; rfl)⟩

/-- C3 counterexample: a transport failure of one member's object-id listing
call terminates the replication process (`os.Exit(1)`): with members m1 and
m2 where m2's listing call fails in transport, the pass ends as a process
exit with status 1 instead of reconciling the remaining members. -/
theorem listing_failure_counterexample :
    syncGroupR ["m1", "m2"]
      (fun l => if l == "m2" then ListingOutcome.transportErr else ListingOutcome.ok ["a1"])
      (fun _ => []) = Sum.inl 1 := rfl

/-- C3 (amended): only a failure to read or decode a member's listing
response body is non-fatal — that member contributes a nil listing (its
objects drop out of the pass as sources) and the engine reconciles the rest;
a transport failure of the listing call itself exits the process. -/
theorem listing_decode_failure_not_fatal
    (servers : List Loc) (ls : Loc → ListingOutcome) (w : World)
    (h : ∀ s ∈ servers, ls s ≠ ListingOutcome.transportErr) :
    syncGroupR servers ls w =
      Sum.inr (mirrorPhase servers
        (servers.map (fun s => (s, effectiveListing (ls s)))) w) := by
  unfold syncGroupR
  have hc : collectListings ls servers =
      Sum.inr (servers.map (fun s => (s, effectiveListing (ls s)))) := by
    induction servers with
    | nil => rfl
    | cons s rest ih =>
        have hs := h s (List.mem_cons_self s rest)
        have ht := ih (fun x hx => h x (List.mem_cons_of_mem s hx))
        cases hls : ls s with
        | transportErr => exact absurd hls hs
        | readErr => simp [collectListings, ObjectsGo, hls, ht, effectiveListing]
        | jsonErr => simp [collectListings, ObjectsGo, hls, ht, effectiveListing]
        | ok ids => simp [collectListings, ObjectsGo, hls, ht, effectiveListing]
  rw [hc]

theorem mem_key_headerSet (hs : Headers) (k v k' : String) :
    (∃ w, (k', w) ∈ headerSet hs k v) ↔ (k' = k ∨ ∃ w, (k', w) ∈ hs) := by
  unfold headerSet
  by_cases h : hs.any (fun kv => kv.1 == k)
  · rw [if_pos h]
    constructor
    · rintro ⟨w, hw⟩
      rw [List.mem_map] at hw
      obtain ⟨kv, hkv, hf⟩ := hw
      by_cases hk : (kv.1 == k) = true
      · rw [if_pos hk] at hf
        left
        exact (Prod.mk.injEq _ _ _ _ ▸ hf).1.symm ▸ rfl
      · rw [if_neg hk] at hf
        right
        exact ⟨w, hf ▸ hkv⟩
    · rintro (hk | ⟨w, hw⟩)
      · subst hk
        obtain ⟨kv, hkv, hkvk⟩ := List.any_eq_true.mp h
        refine ⟨v, List.mem_map.mpr ⟨kv, hkv, ?_⟩⟩
        rw [if_pos hkvk]
      · by_cases hk : k' = k
        · subst hk
          obtain ⟨kv, hkv, hkvk⟩ := List.any_eq_true.mp h
          refine ⟨v, List.mem_map.mpr ⟨kv, hkv, ?_⟩⟩
          rw [if_pos hkvk]
        · refine ⟨w, List.mem_map.mpr ⟨(k', w), hw, ?_⟩⟩
          rw [if_neg (by simpa using hk)]
  · rw [if_neg h]
    constructor
    · rintro ⟨w, hw⟩
      rcases List.mem_append.mp hw with hi | hi
      · exact Or.inr ⟨w, hi⟩
      · rcases List.mem_singleton.mp hi with he
        exact Or.inl (Prod.mk.injEq _ _ _ _ ▸ he).1
    · rintro (hk | ⟨w, hw⟩)
      · exact ⟨v, List.mem_append.mpr (Or.inr (List.mem_singleton.mpr (by rw [hk])))⟩
      · exact ⟨w, List.mem_append.mpr (Or.inl hw)⟩

theorem mem_key_copyX_fold (hs : Headers) (acc : Headers) (k : String) :
    (∃ v, (k, v) ∈ hs.foldl
        (fun a kv => if kv.1.startsWith "X-" then headerSet a kv.1 kv.2 else a) acc) ↔
      ((∃ v, (k, v) ∈ acc) ∨ (k.startsWith "X-" = true ∧ ∃ v, (k, v) ∈ hs)) := by
  induction hs generalizing acc with
  | nil => simp
  | cons kv t ih =>
      rw [List.foldl_cons]
      by_cases hx : kv.1.startsWith "X-" = true
      · rw [if_pos hx, ih, mem_key_headerSet]
        constructor
        · rintro (⟨hk | hacc⟩ | ⟨hsw, w, hw⟩)
          · subst hk
            exact Or.inr ⟨hx, kv.2, List.mem_cons.mpr (Or.inl rfl)⟩
          · exact Or.inl hacc
          · exact Or.inr ⟨hsw, w, List.mem_cons.mpr (Or.inr hw)⟩
        · rintro (hacc | ⟨hsw, w, hw⟩)
          · exact Or.inl (Or.inr hacc)
          · rcases List.mem_cons.mp hw with he | hi
            · exact Or.inl (Or.inl (by rw [← he]))
            · exact Or.inr ⟨hsw, w, hi⟩
      · rw [if_neg hx, ih]
        constructor
        · rintro (hacc | ⟨hsw, w, hw⟩)
          · exact Or.inl hacc
          · exact Or.inr ⟨hsw, w, List.mem_cons.mpr (Or.inr hw)⟩
        · rintro (hacc | ⟨hsw, w, hw⟩)
          · exact Or.inl hacc
          · rcases List.mem_cons.mp hw with he | hi
            · exact absurd (show kv.1.startsWith "X-" = true by rw [← he]; exact hsw) hx
            · exact Or.inr ⟨hsw, w, hi⟩

theorem mem_key_copyXHeaders (hs : Headers) (k : String) :
    (∃ v, (k, v) ∈ copyXHeaders hs) ↔
      (k.startsWith "X-" = true ∧ ∃ v, (k, v) ∈ hs) := by
  rw [copyXHeaders, mem_key_copyX_fold]
  simp

/-- C8: at every metadata hop — the client headers the upload proxy copies
onto its POST, the node response headers the download proxy copies back to
the client, and the response headers the replicator copies onto its mirror
POST — a header name is forwarded exactly when it carries the reserved `X-`
extension name prefix. -/
theorem x_headers_forwarded_iff :
    (∀ (hs : Headers) (k : String),
       (∃ v, (k, v) ∈ copyXHeaders hs) ↔
         (k.startsWith "X-" = true ∧ ∃ v, (k, v) ∈ hs)) ∧
    (∀ (net : Loc → Option HTTPResponse) (order : List Loc) (body : Bytes)
       (hdrs : Headers) (p : PostReq),
       p ∈ (apiUploadTrace net order body hdrs).2 → p.headers = copyXHeaders hdrs) ∧
    (∀ response : HTTPResponse,
       handleSuccessfulDownload Method.GET response =
         some { status := 200, headers := copyXHeaders response.headers,
                body := response.body }) ∧
    (∀ (w : World) (src dst : Loc) (obj : String) (blob : Blob),
       matchesIDRegex obj = true →
       (w.findStore src).lookupId obj = some blob →
       mirrorObject w src dst obj =
         w.setStore dst ((w.findStore dst).insertId obj
           ⟨blob.bytes, xHeaderExtras (copyXHeaders (metaHeaders blob.meta))⟩)) :=
  ⟨mem_key_copyXHeaders,
   fun net order body hdrs p hp => (uploadTrace_mem net order body hdrs p hp).2.2,
   fun _ => rfl,
   mirrorObject_eq⟩

/-- C8 witness: concrete instances for the hop conjuncts that carry
hypotheses — the POST the proxy issues carries exactly the filtered client
headers, and a mirror copy stores exactly the X-filtered metadata. -/
theorem x_headers_forwarded_iff_witness :
    ((⟨"xh1", sha256hex [], [], copyXHeaders [("X-A", "1"), ("B", "2")]⟩ : PostReq) ∈
       (apiUploadTrace (fun _ => none) ["xh1"] [] [("X-A", "1"), ("B", "2")]).2 →
     (⟨"xh1", sha256hex [], [], copyXHeaders [("X-A", "1"), ("B", "2")]⟩ : PostReq).headers =
       copyXHeaders [("X-A", "1"), ("B", "2")]) ∧
    (matchesIDRegex "mobj1" = true ∧
     (World.findStore (fun l => if l == "msrc" then [("mobj1", ⟨[3], [("X-K", "v")]⟩)] else [])
        "msrc").lookupId "mobj1" = some ⟨[3], [("X-K", "v")]⟩ ∧
     mirrorObject (fun l => if l == "msrc" then [("mobj1", ⟨[3], [("X-K", "v")]⟩)] else [])
         "msrc" "mdst" "mobj1" =
       World.setStore (fun l => if l == "msrc" then [("mobj1", ⟨[3], [("X-K", "v")]⟩)] else [])
         "mdst"
         ((World.findStore (fun l => if l == "msrc" then [("mobj1", ⟨[3], [("X-K", "v")]⟩)] else [])
             "mdst").insertId "mobj1"
           ⟨(⟨[3], [("X-K", "v")]⟩ : Blob).bytes,
            xHeaderExtras (copyXHeaders (metaHeaders (⟨[3], [("X-K", "v")]⟩ : Blob).meta))⟩)) :=
  ⟨x_headers_forwarded_iff.2.1 (fun _ => none) ["xh1"] [] [("X-A", "1"), ("B", "2")] _,
   by decide, by rfl,
   x_headers_forwarded_iff.2.2.2
     (fun l => if l == "msrc" then [("mobj1", ⟨[3], [("X-K", "v")]⟩)] else [])
     "msrc" "mdst" "mobj1" ⟨[3], [("X-K", "v")]⟩ (by decide) (by rfl)⟩

theorem nodePost_resp (st : BlobMap) (obj : String) (body : Bytes) (hdrs : Headers)
    (hv : matchesIDRegex obj = true) :
    nodeRespond st ⟨Method.POST, obj, body, hdrs⟩ =
      { status := 200, headers := [], body := uploadOKBody obj body.length } := by
  rw [nodeRespond, nodePost_eq st obj body hdrs hv]

theorem apiUploadWorld_cons (s0 : Loc) (rest : List Loc) (w : World)
    (payload : Bytes) (hdrs : Headers) :
    apiUploadWorld (s0 :: rest) w payload hdrs =
      (w.setStore s0 ((w.findStore s0).insertId (sha256hex payload)
         ⟨payload, xHeaderExtras (copyXHeaders hdrs)⟩),
       { body := uploadOKBody (sha256hex payload) payload.length }) := by
  have hv := sha256hex_valid payload
  simp only [apiUploadWorld]
  rw [nodePost_resp _ _ _ _ hv, nodeAfter_post _ _ _ _ hv]
  rfl

theorem downloadLoop_found (w : World) (id : String) (payload : Bytes)
    (hv : matchesIDRegex id = true)
    (hinv : ∀ loc blob, (w.findStore loc).lookupId id = some blob →
              blob.bytes = payload)
    (order : List Loc)
    (hex : ∃ s ∈ order, ((w.findStore s).lookupId id).isSome = true) :
    (apiDownloadLoop w Method.GET id order).status = 200 ∧
    (apiDownloadLoop w Method.GET id order).body = payload := by
  induction order with
  | nil => simp at hex
  | cons s rest ih =>
      cases hlk : (w.findStore s).lookupId id with
      | some blob =>
          have hb := hinv s blob hlk
          simp only [apiDownloadLoop]
          rw [nodeGet_found _ _ _ hv hlk]
          simp [tryDownloadFromServer, handleSuccessfulDownload, goReadAll, hb]
      | none =>
          have hex' : ∃ x ∈ rest, ((w.findStore x).lookupId id).isSome = true := by
            rcases hex with ⟨q, hq, hqs⟩
            rcases List.mem_cons.mp hq with he | he
            · subst he; rw [hlk] at hqs; simp at hqs
            · exact ⟨q, he, hqs⟩
          simp only [apiDownloadLoop]
          rw [nodeGet_missing _ _ hv hlk]
          simpa [tryDownloadFromServer, httpNotFound, httpError] using ih hex'

/-- C1: uploading any byte payload through the proxy tier (which stores it
on the first candidate node under the derived SHA-256 id) and then fetching
that id through the download proxy returns bytes identical to the payload,
for any world whose nodes (BlobStore collaborators honouring their
store/get contract) hold nothing conflicting under that content-derived id,
provided the storing node is among the download candidates. -/
theorem upload_then_fetch_returns_payload (payload : Bytes) (hdrs : Headers)
    (w : World) (s0 : Loc) (upRest dnOrder : List Loc)
    (hmem : s0 ∈ dnOrder)
    (hca : ∀ loc blob, (w.findStore loc).lookupId (sha256hex payload) = some blob →
             blob.bytes = payload) :
    (apiDownloadWorld dnOrder (apiUploadWorld (s0 :: upRest) w payload hdrs).1
       Method.GET (sha256hex payload)).status = 200 ∧
    (apiDownloadWorld dnOrder (apiUploadWorld (s0 :: upRest) w payload hdrs).1
       Method.GET (sha256hex payload)).body = payload := by
  rw [apiUploadWorld_cons]
  have hinv : ∀ loc blob,
      ((w.setStore s0 ((w.findStore s0).insertId (sha256hex payload)
          ⟨payload, xHeaderExtras (copyXHeaders hdrs)⟩)).findStore loc).lookupId
        (sha256hex payload) = some blob → blob.bytes = payload := by
    intro loc blob hb
    by_cases hl : loc = s0
    · subst hl
      rw [findStore_setStore_self, lookupId_insertId_self] at hb
      cases hb; rfl
    · rw [findStore_setStore_ne _ _ _ _ hl] at hb
      exact hca loc blob hb
  have hex : ∃ s ∈ dnOrder,
      (((w.setStore s0 ((w.findStore s0).insertId (sha256hex payload)
          ⟨payload, xHeaderExtras (copyXHeaders hdrs)⟩)).findStore s).lookupId
        (sha256hex payload)).isSome = true := by
    refine ⟨s0, hmem, ?_⟩
    rw [findStore_setStore_self, lookupId_insertId_self]
    rfl
  unfold apiDownloadWorld
  rw [stripExtension_sha256hex]
  exact downloadLoop_found _ _ payload (sha256hex_valid payload) hinv dnOrder hex

/-- C1 witness: uploading the two bytes of "hi" to a single empty node and
fetching the digest id back returns those bytes with a 200. -/
theorem upload_then_fetch_returns_payload_witness :
    (("rt1" : Loc) ∈ (["rt1"] : List Loc)) ∧
    (apiDownloadWorld ["rt1"]
       (apiUploadWorld ["rt1"] (fun _ => []) (asciiBytes "hi") []).1
       Method.GET (sha256hex (asciiBytes "hi"))).status = 200 ∧
    (apiDownloadWorld ["rt1"]
       (apiUploadWorld ["rt1"] (fun _ => []) (asciiBytes "hi") []).1
       Method.GET (sha256hex (asciiBytes "hi"))).body = asciiBytes "hi" :=
  ⟨List.mem_cons_self "rt1" [],
   upload_then_fetch_returns_payload (asciiBytes "hi") [] (fun _ => []) "rt1" [] ["rt1"]
     (List.mem_cons_self "rt1" [])
     (fun loc blob hb => by
       simp [World.findStore, BlobMap.lookupId] at hb)⟩

/-- C3 witness: a member whose listing body fails to decode participates
with a nil listing and the pass still completes. -/
theorem listing_decode_failure_not_fatal_witness :
    (∀ s ∈ (["p1", "p2"] : List Loc),
       (fun l => if l == "p1" then ListingOutcome.readErr else ListingOutcome.ok ["o1"]) s ≠
         ListingOutcome.transportErr) ∧
    syncGroupR ["p1", "p2"]
      (fun l => if l == "p1" then ListingOutcome.readErr else ListingOutcome.ok ["o1"])
      (fun _ => []) =
      Sum.inr (mirrorPhase ["p1", "p2"]
        ((["p1", "p2"] : List Loc).map
          (fun s => (s, effectiveListing
            ((fun l => if l == "p1" then ListingOutcome.readErr else ListingOutcome.ok ["o1"]) s))))
        (fun _ => [])) :=
  ⟨by decide,
   listing_decode_failure_not_fatal ["p1", "p2"]
     (fun l => if l == "p1" then ListingOutcome.readErr else ListingOutcome.ok ["o1"])
     (fun _ => []) (by decide)⟩

/-- C6: after one replication pass over a group whose node A holds ids
x and y and whose node B holds ids y and z, both nodes hold exactly the
union of ids (with the copied objects' bytes intact), and a second
consecutive pass performs no copies and leaves every node's contents
unchanged — all node fetch/store calls succeeding throughout. -/
theorem replication_pass_union_and_idempotent
    (A B x y z : String) (bx my1 my2 bz : Blob)
    (hAB : A ≠ B)
    (hvx : matchesIDRegex x = true) (hvy : matchesIDRegex y = true)
    (hvz : matchesIDRegex z = true)
    (hxy : x ≠ y) (hxz : x ≠ z) (hyz : y ≠ z) :
    (∀ i, ((((syncGroupPure [A, B]
        (twoNodeWorld A B [(x, bx), (y, my1)] [(y, my2), (z, bz)])).1).findStore A).lookupId
          i).isSome = true ↔ (i = x ∨ i = y ∨ i = z)) ∧
    (∀ i, ((((syncGroupPure [A, B]
        (twoNodeWorld A B [(x, bx), (y, my1)] [(y, my2), (z, bz)])).1).findStore B).lookupId
          i).isSome = true ↔ (i = x ∨ i = y ∨ i = z)) ∧
    ((((syncGroupPure [A, B]
        (twoNodeWorld A B [(x, bx), (y, my1)] [(y, my2), (z, bz)])).1).findStore B).lookupId
          x).map Blob.bytes = some bx.bytes ∧
    ((((syncGroupPure [A, B]
        (twoNodeWorld A B [(x, bx), (y, my1)] [(y, my2), (z, bz)])).1).findStore A).lookupId
          z).map Blob.bytes = some bz.bytes ∧
    syncGroupPure [A, B] (syncGroupPure [A, B]
        (twoNodeWorld A B [(x, bx), (y, my1)] [(y, my2), (z, bz)])).1 =
      ((syncGroupPure [A, B]
        (twoNodeWorld A B [(x, bx), (y, my1)] [(y, my2), (z, bz)])).1, 0) := by
  set w0 : World := twoNodeWorld A B [(x, bx), (y, my1)] [(y, my2), (z, bz)] with hw0def
  set mx : Blob := ⟨bx.bytes, xHeaderExtras (copyXHeaders (metaHeaders bx.meta))⟩ with hmx
  set mz : Blob := ⟨bz.bytes, xHeaderExtras (copyXHeaders (metaHeaders bz.meta))⟩ with hmz
  set w1 : World := w0.setStore B (BlobMap.insertId [(y, my2), (z, bz)] x mx) with hw1
  set w2 : World := w1.setStore A (BlobMap.insertId [(x, bx), (y, my1)] z mz) with hw2
  have haa : (A == A) = true := beq_self_eq_true A
  have hbb : (B == B) = true := beq_self_eq_true B
  have hba : (B == A) = false := beq_eq_false_iff_ne.mpr (fun h => hAB h.symm)
  have hab : (A == B) = false := beq_eq_false_iff_ne.mpr hAB
  have hxx : (x == x) = true := beq_self_eq_true x
  have hyy : (y == y) = true := beq_self_eq_true y
  have hzz : (z == z) = true := beq_self_eq_true z
  have hxyb : (x == y) = false := beq_eq_false_iff_ne.mpr hxy
  have hyxb : (y == x) = false := beq_eq_false_iff_ne.mpr (fun h => hxy h.symm)
  have hxzb : (x == z) = false := beq_eq_false_iff_ne.mpr hxz
  have hzxb : (z == x) = false := beq_eq_false_iff_ne.mpr (fun h => hxz h.symm)
  have hyzb : (y == z) = false := beq_eq_false_iff_ne.mpr hyz
  have hzyb : (z == y) = false := beq_eq_false_iff_ne.mpr (fun h => hyz h.symm)
  have lkA0x : BlobMap.lookupId [(x, bx), (y, my1)] x = some bx := by
    simp [BlobMap.lookupId, hxx]
  have lkA0y : BlobMap.lookupId [(x, bx), (y, my1)] y = some my1 := by
    simp [BlobMap.lookupId, hxyb, hyy]
  have lkA0z : BlobMap.lookupId [(x, bx), (y, my1)] z = none := by
    simp [BlobMap.lookupId, hxzb, hyzb]
  have lkB0x : BlobMap.lookupId [(y, my2), (z, bz)] x = none := by
    simp [BlobMap.lookupId, hyxb, hzxb]
  have lkB0y : BlobMap.lookupId [(y, my2), (z, bz)] y = some my2 := by
    simp [BlobMap.lookupId, hyy]
  have lkB0z : BlobMap.lookupId [(y, my2), (z, bz)] z = some bz := by
    simp [BlobMap.lookupId, hyzb, hzz]
  have lkB1x : (BlobMap.insertId [(y, my2), (z, bz)] x mx).lookupId x = some mx :=
    lookupId_insertId_self _ _ _
  have lkB1y : (BlobMap.insertId [(y, my2), (z, bz)] x mx).lookupId y = some my2 := by
    rw [lookupId_insertId_ne _ _ _ _ (fun h => hxy h.symm)]; exact lkB0y
  have lkB1z : (BlobMap.insertId [(y, my2), (z, bz)] x mx).lookupId z = some bz := by
    rw [lookupId_insertId_ne _ _ _ _ (fun h => hxz h.symm)]; exact lkB0z
  have lkA2z : (BlobMap.insertId [(x, bx), (y, my1)] z mz).lookupId z = some mz :=
    lookupId_insertId_self _ _ _
  have lkA2x : (BlobMap.insertId [(x, bx), (y, my1)] z mz).lookupId x = some bx := by
    rw [lookupId_insertId_ne _ _ _ _ hxz]; exact lkA0x
  have lkA2y : (BlobMap.insertId [(x, bx), (y, my1)] z mz).lookupId y = some my1 := by
    rw [lookupId_insertId_ne _ _ _ _ hyz]; exact lkA0y
  have hA0 : w0.findStore A = [(x, bx), (y, my1)] := by
    rw [hw0def]; simp [twoNodeWorld, World.findStore, haa]
  have hB0 : w0.findStore B = [(y, my2), (z, bz)] := by
    rw [hw0def]; simp [twoNodeWorld, World.findStore, hba, hbb]
  have hA1 : w1.findStore A = [(x, bx), (y, my1)] := by
    rw [hw1, findStore_setStore_ne _ _ _ _ hAB]; exact hA0
  have hB1 : w1.findStore B = BlobMap.insertId [(y, my2), (z, bz)] x mx := by
    rw [hw1, findStore_setStore_self]
  have hA2 : w2.findStore A = BlobMap.insertId [(x, bx), (y, my1)] z mz := by
    rw [hw2, findStore_setStore_self]
  have hB2 : w2.findStore B = BlobMap.insertId [(y, my2), (z, bz)] x mx := by
    rw [hw2, findStore_setStore_ne _ _ _ _ (fun h => hAB h.symm)]; exact hB1
  have hoB0x : hasObjectNode (w0.findStore B) x = false := by
    rw [hB0, hasObjectNode_eq _ _ hvx, lkB0x]; rfl
  have hoB1y : hasObjectNode (w1.findStore B) y = true := by
    rw [hB1, hasObjectNode_eq _ _ hvy, lkB1y]; rfl
  have hoA1y : hasObjectNode (w1.findStore A) y = true := by
    rw [hA1, hasObjectNode_eq _ _ hvy, lkA0y]; rfl
  have hoA1z : hasObjectNode (w1.findStore A) z = false := by
    rw [hA1, hasObjectNode_eq _ _ hvz, lkA0z]; rfl
  have hm1 : mirrorObject w0 A B x = w1 := by
    rw [mirrorObject_eq w0 A B x bx hvx (by rw [hA0]; exact lkA0x)]
    rw [hB0, hw1, hmx]
  have hm2 : mirrorObject w1 B A z = w2 := by
    rw [mirrorObject_eq w1 B A z bz hvz (by rw [hB1]; exact lkB1z)]
    rw [hA1, hw2, hmz]
  have e1 : mirrorsLoop A x (w0, 0) [A, B] = (w1, 1) := by
    simp [mirrorsLoop, haa, hba, hoB0x, hm1]
  have e2 : mirrorsLoop A y (w1, 1) [A, B] = (w1, 1) := by
    simp [mirrorsLoop, haa, hba, hoB1y]
  have e3 : mirrorsLoop B y (w1, 1) [A, B] = (w1, 1) := by
    simp [mirrorsLoop, hbb, hab, hoA1y]
  have e4 : mirrorsLoop B z (w1, 1) [A, B] = (w2, 2) := by
    simp [mirrorsLoop, hbb, hab, hoA1z, hm2]
  have hmap1 : List.map (fun s => (s, some ((w0.findStore s).ids))) [A, B]
      = [(A, some [x, y]), (B, some [y, z])] := by
    simp [hA0, hB0, BlobMap.ids]
  have hLA : lookupListing [(A, some [x, y]), (B, some [y, z])] A = [x, y] := by
    simp [lookupListing, List.find?, haa]
  have hLB : lookupListing [(A, some [x, y]), (B, some [y, z])] B = [y, z] := by
    simp [lookupListing, List.find?, hab, hbb]
  have hr : syncGroupPure [A, B] w0 = (w2, 2) := by
    rw [syncGroupPure, hmap1, mirrorPhase]
    simp only [serversLoop, objsLoop, hLA, hLB]
    rw [e1, e2, e3, e4]
  have hA2ids : (w2.findStore A).ids = [z, x, y] := by
    rw [hA2]
    simp [BlobMap.insertId, BlobMap.ids, List.filter, hxzb, hyzb]
  have hB2ids : (w2.findStore B).ids = [x, y, z] := by
    rw [hB2]
    simp [BlobMap.insertId, BlobMap.ids, List.filter, hyxb, hzxb]
  have hmap2 : List.map (fun s => (s, some ((w2.findStore s).ids))) [A, B]
      = [(A, some [z, x, y]), (B, some [x, y, z])] := by
    simp [hA2ids, hB2ids]
  have hLA2 : lookupListing [(A, some [z, x, y]), (B, some [x, y, z])] A = [z, x, y] := by
    simp [lookupListing, List.find?, haa]
  have hLB2 : lookupListing [(A, some [z, x, y]), (B, some [x, y, z])] B = [x, y, z] := by
    simp [lookupListing, List.find?, hab, hbb]
  have hoB2x : hasObjectNode (w2.findStore B) x = true := by
    rw [hB2, hasObjectNode_eq _ _ hvx, lkB1x]; rfl
  have hoB2y : hasObjectNode (w2.findStore B) y = true := by
    rw [hB2, hasObjectNode_eq _ _ hvy, lkB1y]; rfl
  have hoB2z : hasObjectNode (w2.findStore B) z = true := by
    rw [hB2, hasObjectNode_eq _ _ hvz, lkB1z]; rfl
  have hoA2x : hasObjectNode (w2.findStore A) x = true := by
    rw [hA2, hasObjectNode_eq _ _ hvx, lkA2x]; rfl
  have hoA2y : hasObjectNode (w2.findStore A) y = true := by
    rw [hA2, hasObjectNode_eq _ _ hvy, lkA2y]; rfl
  have hoA2z : hasObjectNode (w2.findStore A) z = true := by
    rw [hA2, hasObjectNode_eq _ _ hvz, lkA2z]; rfl
  have f1 : mirrorsLoop A z (w2, 0) [A, B] = (w2, 0) := by
    simp [mirrorsLoop, haa, hba, hoB2z]
  have f2 : mirrorsLoop A x (w2, 0) [A, B] = (w2, 0) := by
    simp [mirrorsLoop, haa, hba, hoB2x]
  have f3 : mirrorsLoop A y (w2, 0) [A, B] = (w2, 0) := by
    simp [mirrorsLoop, haa, hba, hoB2y]
  have f4 : mirrorsLoop B x (w2, 0) [A, B] = (w2, 0) := by
    simp [mirrorsLoop, hbb, hab, hoA2x]
  have f5 : mirrorsLoop B y (w2, 0) [A, B] = (w2, 0) := by
    simp [mirrorsLoop, hbb, hab, hoA2y]
  have f6 : mirrorsLoop B z (w2, 0) [A, B] = (w2, 0) := by
    simp [mirrorsLoop, hbb, hab, hoA2z]
  have hr2 : syncGroupPure [A, B] w2 = (w2, 0) := by
    rw [syncGroupPure, hmap2, mirrorPhase]
    simp only [serversLoop, objsLoop, hLA2, hLB2]
    rw [f1, f2, f3, f4, f5, f6]
  have hcA : ∀ i, ((w2.findStore A).lookupId i).isSome = true ↔
      (i = x ∨ i = y ∨ i = z) := by
    intro i
    rw [hA2]
    by_cases hiz : i = z
    · subst hiz; rw [lkA2z]; simp
    · rw [lookupId_insertId_ne _ _ _ _ hiz]
      by_cases hix : i = x
      · subst hix; rw [lkA0x]; simp
      · by_cases hiy : i = y
        · subst hiy; rw [lkA0y]; simp
        · have h1 : (x == i) = false := beq_eq_false_iff_ne.mpr (fun h => hix h.symm)
          have h2 : (y == i) = false := beq_eq_false_iff_ne.mpr (fun h => hiy h.symm)
          simp [BlobMap.lookupId, h1, h2, hix, hiy, hiz]
  have hcB : ∀ i, ((w2.findStore B).lookupId i).isSome = true ↔
      (i = x ∨ i = y ∨ i = z) := by
    intro i
    rw [hB2]
    by_cases hix : i = x
    · subst hix; rw [lkB1x]; simp
    · rw [lookupId_insertId_ne _ _ _ _ hix]
      by_cases hiy : i = y
      · subst hiy; rw [lkB0y]; simp
      · by_cases hiz : i = z
        · subst hiz; rw [lkB0z]; simp
        · have h1 : (y == i) = false := beq_eq_false_iff_ne.mpr (fun h => hiy h.symm)
          have h2 : (z == i) = false := beq_eq_false_iff_ne.mpr (fun h => hiz h.symm)
          simp [BlobMap.lookupId, h1, h2, hix, hiy, hiz]
  refine ⟨?_, ?_, ?_, ?_, ?_⟩
  · intro i; rw [hr]; exact hcA i
  · intro i; rw [hr]; exact hcB i
  · rw [hr]
    show ((w2.findStore B).lookupId x).map Blob.bytes = some bx.bytes
    rw [hB2, lkB1x, hmx]
    rfl
  · rw [hr]
    show ((w2.findStore A).lookupId z).map Blob.bytes = some bz.bytes
    rw [hA2, lkA2z, hmz]
    rfl
  · rw [hr]
    exact hr2

/-- The two-node world of the C6 witness. -/
def worldC6 : World :=
  twoNodeWorld "wa" "wb" [("idx", ⟨[1], []⟩), ("idy", ⟨[2], []⟩)]
    [("idy", ⟨[2], []⟩), ("idz", ⟨[3], []⟩)]

/-- C6 witness: the concrete two-node scenario converges to the union and a
second pass is a no-op. -/
theorem replication_pass_union_and_idempotent_witness :
    ("wa" : String) ≠ "wb" ∧ matchesIDRegex "idx" = true ∧
    ((∀ i, (((syncGroupPure ["wa", "wb"] worldC6).1.findStore "wa").lookupId i).isSome = true ↔
        (i = "idx" ∨ i = "idy" ∨ i = "idz")) ∧
     (∀ i, (((syncGroupPure ["wa", "wb"] worldC6).1.findStore "wb").lookupId i).isSome = true ↔
        (i = "idx" ∨ i = "idy" ∨ i = "idz")) ∧
     (((syncGroupPure ["wa", "wb"] worldC6).1.findStore "wb").lookupId "idx").map Blob.bytes =
        some (Blob.bytes ⟨[1], []⟩) ∧
     (((syncGroupPure ["wa", "wb"] worldC6).1.findStore "wa").lookupId "idz").map Blob.bytes =
        some (Blob.bytes ⟨[3], []⟩) ∧
     syncGroupPure ["wa", "wb"] (syncGroupPure ["wa", "wb"] worldC6).1 =
       ((syncGroupPure ["wa", "wb"] worldC6).1, 0)) :=
  ⟨by decide, by decide,
   replication_pass_union_and_idempotent "wa" "wb" "idx" "idy" "idz"
     ⟨[1], []⟩ ⟨[2], []⟩ ⟨[2], []⟩ ⟨[3], []⟩
     (by decide) (by decide) (by decide) (by decide)
     (by decide) (by decide) (by decide)⟩

end SOS
